import Mathlib

/-
Verification of the content-addressed caching and generation-orchestration
layer of the vscode-literate extension, against its TypeScript source
(src/src-public/cache-manager.ts, src/src-public/documentation-generator.ts,
src/src-public/extension.ts, src/src-public/types.ts).
-/

namespace Literate

/-- Line range produced by the model, RangeSchema in src/src-public/types.ts.
Field names follow the source; the end field is inclusive and 1-based. -/
structure Range where
  start : Int
  «end» : Int
deriving DecidableEq

/-- ProseSchema from src/src-public/types.ts: line ranges plus markdown text. -/
structure Prose where
  lines : List Range
  text : String
deriving DecidableEq

/-- DocumentationSchema from src/src-public/types.ts: an ordered sequence of
sections. -/
structure Documentation where
  sections : List Prose
deriving DecidableEq

/-- JSON tree, the parse result of a JSON text. The cache files written by
CacheManager.save hold JSON.stringify output, whose parse is exactly the tree
of the stringified value, so the development works at the tree level. -/
inductive JsonVal where
  | str (s : String)
  | num (n : Int)
  | arr (xs : List JsonVal)
  | obj (fields : List (String × JsonVal))

/-- JSON tree of a Range, with the field order of the object literal in
types.ts. -/
def rangeToJson (r : Range) : JsonVal :=
  JsonVal.obj [("start", JsonVal.num r.start), ("end", JsonVal.num r.«end»)]

/-- JSON tree of a Prose section. -/
def proseToJson (p : Prose) : JsonVal :=
  JsonVal.obj [("lines", JsonVal.arr (p.lines.map rangeToJson)), ("text", JsonVal.str p.text)]

/-- JSON tree of a Documentation, the value JSON.stringify serializes in
CacheManager.save. -/
def docToJson (d : Documentation) : JsonVal :=
  JsonVal.obj [("sections", JsonVal.arr (d.sections.map proseToJson))]

/-- Reading of a JSON tree as a Range; none when the tree does not have the
exact shape rangeToJson produces. Used to state deep equality between a
loaded tree and a Documentation value. -/
def rangeFromJson : JsonVal → Option Range
  | JsonVal.obj [("start", JsonVal.num a), ("end", JsonVal.num b)] => some (Range.mk a b)
  | _ => none

/-- Reading of a list of JSON trees elementwise. -/
def listFromJson {α : Type} (f : JsonVal → Option α) : List JsonVal → Option (List α)
  | [] => some []
  | v :: vs =>
    match f v, listFromJson f vs with
    | some a, some as => some (a :: as)
    | _, _ => none

/-- Reading of a JSON tree as a Prose section. -/
def proseFromJson : JsonVal → Option Prose
  | JsonVal.obj [("lines", JsonVal.arr ls), ("text", JsonVal.str t)] =>
    match listFromJson rangeFromJson ls with
    | some rs => some (Prose.mk rs t)
    | none => none
  | _ => none

/-- Reading of a JSON tree as a Documentation; deep equality of a cached tree
with a Documentation value is docFromJson tree = some doc. -/
def docFromJson : JsonVal → Option Documentation
  | JsonVal.obj [("sections", JsonVal.arr ss)] =>
    match listFromJson proseFromJson ss with
    | some ps => some (Documentation.mk ps)
    | none => none
  | _ => none

/-- Content of a file as the cache layer observes it: a readable file holding
valid JSON text (given as its parse tree), a readable file whose text is not
valid JSON (JSON.parse throws on it), or a file whose read itself throws. -/
inductive FileData where
  | jsonFile (v : JsonVal)
  | textFile (s : String)
  | unreadable

/-- Filesystem state visible to the cache layer: an association of paths to
file contents. -/
abbrev FS := List (String × FileData)

/-- fs.existsSync and readFileSync resolve paths against this association. -/
def lookupFile : FS → String → Option FileData
  | [], _ => none
  | (q, d) :: rest, p => if q = p then some d else lookupFile rest p

/-- fs.writeFileSync: creates the file or overwrites an existing one. -/
def setFile : FS → String → FileData → FS
  | [], p, d => [(p, d)]
  | (q, e) :: rest, p, d => if q = p then (p, d) :: rest else (q, e) :: setFile rest p d

/-- fs.existsSync from node:fs. -/
def existsSync (fs : FS) (p : String) : Bool :=
  (lookupFile fs p).isSome

/-- fs.readFileSync followed by JSON.parse, collapsed to the tree level: a
jsonFile entry reads and parses to its tree, a textFile entry reads but
JSON.parse throws a SyntaxError, an unreadable entry throws at readFileSync,
and reading a missing path throws ENOENT. -/
def readAndParse (fs : FS) (p : String) : Except String JsonVal :=
  match lookupFile fs p with
  | some (FileData.jsonFile v) => Except.ok v
  | some (FileData.textFile _) => Except.error "SyntaxError"
  | some FileData.unreadable => Except.error "EACCES"
  | none => Except.error "ENOENT"

/-- CacheManager from src/src-public/cache-manager.ts. cacheDir is fixed at
construction, joining the HOME directory with .cache/mathematic-literate.
sha256 abstracts the crypto.createHash digest pipeline: a fixed deterministic
function of the full byte sequence fed through the update calls. -/
structure CacheManager where
  cacheDir : String
  sha256 : String → String

namespace CacheManager

/-- getCacheKey from cache-manager.ts. The three successive hash.update calls
feed SHA-256 the concatenation filePath ++ content ++ skillLevel with no
separator between the fields, because a streaming hash digests exactly the
concatenation of its update chunks. -/
def getCacheKey (m : CacheManager) (filePath content skillLevel : String) : String :=
  m.sha256 (filePath ++ content ++ skillLevel)

/-- getCachePath from cache-manager.ts: path.join of the cache directory with
the hex key plus a .json suffix. -/
def getCachePath (m : CacheManager) (cacheKey : String) : String :=
  m.cacheDir ++ "/" ++ cacheKey ++ ".json"

/-- Body of the try block of CacheManager.load: when the cache file exists it
is read and parsed, and any thrown error propagates out of the block; when it
does not exist the block falls through to return null. -/
def loadAttempt (m : CacheManager) (fs : FS) (filePath content skillLevel : String) :
    Except String (Option JsonVal) :=
  let cachePath := m.getCachePath (m.getCacheKey filePath content skillLevel)
  if existsSync fs cachePath then (readAndParse fs cachePath).map some
  else Except.ok none

/-- CacheManager.load with its catch clause: a thrown error is logged with
console.error and the function returns null. The result is the raw parsed
tree, because the source casts the JSON.parse result without validation. -/
def load (m : CacheManager) (fs : FS) (filePath content skillLevel : String) :
    Option JsonVal :=
  match loadAttempt m fs filePath content skillLevel with
  | Except.ok r => r
  | Except.error _ => none

/-- CacheManager.load viewed as the exception-carrying computation including
its catch clause, to state that no error escapes the method. -/
def loadResult (m : CacheManager) (fs : FS) (filePath content skillLevel : String) :
    Except String (Option JsonVal) :=
  match loadAttempt m fs filePath content skillLevel with
  | Except.ok r => Except.ok r
  | Except.error _ => Except.ok none

/-- CacheManager.save: writeFileSync of JSON.stringify(documentation) at the
cache path. writeOk models whether the write throws; a throwing write is
caught and logged, leaving the filesystem unchanged. -/
def save (m : CacheManager) (fs : FS) (filePath content skillLevel : String)
    (documentation : Documentation) (writeOk : Bool) : FS :=
  let cachePath := m.getCachePath (m.getCacheKey filePath content skillLevel)
  if writeOk then setFile fs cachePath (FileData.jsonFile (docToJson documentation))
  else fs

end CacheManager

/-- Outcome of the awaited model call client.chat.completions.parse as the
awaiting code observes it: the promise resolved, carrying the value of
response.choices[0]?.message.parsed, or it rejected with an error of the
given name. -/
inductive ModelOutcome where
  | resolved (parsed : Option Documentation)
  | rejected (errName : String)

/-- Outcome of DocumentationGenerator.generate: the method returned a
Documentation, or it rethrew an error of the given name, with cancelNotice
recording whether the catch clause showed the cancellation information
message, which is the abort condition: the error name is AbortError or the
abort signal of the session is set. -/
inductive GenOutcome where
  | completed (doc : Documentation)
  | thrown (errName : String) (cancelNotice : Bool)
deriving DecidableEq

namespace DocumentationGenerator

/-- generate from src/src-public/documentation-generator.ts, as a function of
the state of the abort signal when the awaited call ends and of how that call
ended. A resolved call with parsed data is returned as completed with no
further check of the signal; a resolved call without parsed data throws
Error(Failed to parse documentation from AI response), which the catch clause
rethrows; a rejected call is rethrown the same way. The catch clause shows the
cancellation notice exactly when the error name is AbortError or the signal is
aborted. -/
def generate (cancelRequested : Bool) (outcome : ModelOutcome) : GenOutcome :=
  match outcome with
  | ModelOutcome.resolved (some doc) => GenOutcome.completed doc
  | ModelOutcome.resolved none =>
    GenOutcome.thrown "Error" (("Error" == "AbortError") || cancelRequested)
  | ModelOutcome.rejected errName =>
    GenOutcome.thrown errName ((errName == "AbortError") || cancelRequested)

end DocumentationGenerator

/-- Abort-controller bookkeeping of the extension host across updateContent
invocations: nextId numbers the AbortController allocations, current is the
controller stored in the _abortController field, aborted lists the
controllers whose abort method has been called, and inFlight lists the
sessions whose model call has started and not finished. -/
structure SessionState where
  nextId : Nat
  current : Option Nat
  aborted : List Nat
  inFlight : List Nat
deriving DecidableEq

/-- Start of the generation part of updateContent in
src/src-public/extension.ts: a fresh AbortController is created and stored in
this._abortController, replacing any prior reference, and the model call
begins. No abort method is invoked on any previously stored controller, and
DocumentationGenerator.generate in documentation-generator.ts overwrites its
abortController field the same way. -/
def beginUpdateSession (s : SessionState) : SessionState :=
  SessionState.mk (s.nextId + 1) (some s.nextId) s.aborted (s.nextId :: s.inFlight)

/-- Result of a coordinator request: a store hit returning the cached tree, a
fresh successful generation, a cancellation, or a generation failure carrying
the error name. -/
inductive RequestResult where
  | cached (v : JsonVal)
  | generated (doc : Documentation)
  | cancelled
  | failed (errName : String)

/-- Boolean success of a request result: a cache hit or a completed
generation. -/
def isSuccessResult : RequestResult → Bool
  | RequestResult.cached _ => true
  | RequestResult.generated _ => true
  | RequestResult.cancelled => false
  | RequestResult.failed _ => false

/-- Observable trace of one coordinator request: the filesystem afterwards,
the result, the number of generation sessions started, and the list of store
writes performed, each as the written path with the written tree. -/
structure RequestTrace where
  fsOut : FS
  result : RequestResult
  sessions : Nat
  writes : List (String × JsonVal)

/-- Modelled from the spec: the generation arm of
DocumentationCoordinator.request, section 4.4 steps 3 and 4. The repository
has no file under src that wires CacheManager into the generation flow, so
the coordinator is modelled from the spec, while the session outcome is the
source-embedded DocumentationGenerator.generate and the store operations are
the source-embedded CacheManager.save. On a completed session the generated
documentation is saved under the fingerprint, one store write; a thrown
outcome with the cancellation notice propagates as cancelled and one without
it as failed, with no store write either way. -/
def runGeneration (m : CacheManager) (fs : FS) (filePath content skillLevel : String)
    (outcome : ModelOutcome) (cancelRequested : Bool) (writeOk : Bool) : RequestTrace :=
  match DocumentationGenerator.generate cancelRequested outcome with
  | GenOutcome.completed doc =>
    RequestTrace.mk (CacheManager.save m fs filePath content skillLevel doc writeOk)
      (RequestResult.generated doc) 1
      [(m.getCachePath (m.getCacheKey filePath content skillLevel), docToJson doc)]
  | GenOutcome.thrown errName notice =>
    RequestTrace.mk fs
      (if notice then RequestResult.cancelled else RequestResult.failed errName) 1 []

/-- Modelled from the spec: DocumentationCoordinator.request, section 4.4.
The repository has no file under src implementing this coordinator, only its
collaborators: updateContent in extension.ts performs no cache read or write,
while CacheManager sits uncalled, so the algorithm is taken from the spec:
compute the fingerprint, on no forced refresh consult the store through the
source-embedded CacheManager.load and return a hit immediately with no
session, otherwise run one generation session. -/
def request (m : CacheManager) (fs : FS) (filePath content skillLevel : String)
    (forceRefresh : Bool) (outcome : ModelOutcome) (cancelRequested : Bool)
    (writeOk : Bool) : RequestTrace :=
  if forceRefresh then
    runGeneration m fs filePath content skillLevel outcome cancelRequested writeOk
  else
    match CacheManager.load m fs filePath content skillLevel with
    | some v => RequestTrace.mk fs (RequestResult.cached v) 0 []
    | none => runGeneration m fs filePath content skillLevel outcome cancelRequested writeOk

/-- Expected store-write log of a request by its result, the comparison
definition for the side-effect contract of section 4.4: exactly one write,
of the generated documentation at the fingerprint path, per successful
generation, and none otherwise. -/
def expectedWriteLog (m : CacheManager) (filePath content skillLevel : String) :
    RequestResult → List (String × JsonVal)
  | RequestResult.generated doc =>
    [(m.getCachePath (m.getCacheKey filePath content skillLevel), docToJson doc)]
  | _ => []

namespace DocumentationGenerator

/-- getAnalyzerPrompt from src/src-public/documentation-generator.ts: a switch
on skillLevel whose beginner and advanced cases return the matching imported
prompt file and whose default case returns the intermediate prompt. The three
prompt file contents are parameters, since the selection logic is independent
of them. -/
def getAnalyzerPrompt
    (codeAnalyzerBeginner codeAnalyzerIntermediate codeAnalyzerAdvanced : String)
    (skillLevel : String) : String :=
  match skillLevel with
  | "beginner" => codeAnalyzerBeginner
  | "advanced" => codeAnalyzerAdvanced
  | _ => codeAnalyzerIntermediate

end DocumentationGenerator

/-- Inline conditional chain in updateContent in src/src-public/extension.ts
selecting the analyzer prompt: beginner when skillLevel is beginner, else
advanced when it is advanced, else intermediate. -/
def inlineAnalyzerPrompt
    (codeAnalyzerBeginner codeAnalyzerIntermediate codeAnalyzerAdvanced : String)
    (skillLevel : String) : String :=
  if skillLevel = "beginner" then codeAnalyzerBeginner
  else if skillLevel = "advanced" then codeAnalyzerAdvanced
  else codeAnalyzerIntermediate

/-- Concrete documentation value used in witnesses. -/
def exDoc : Documentation :=
  Documentation.mk [Prose.mk [Range.mk 1 2] "adds two numbers"]

/-- Concrete cache manager used in witnesses; the identity function stands in
for the hex digest, which witnesses may choose since every statement holds
for an arbitrary digest function. -/
def mEx : CacheManager :=
  CacheManager.mk ".cache/mathematic-literate" (fun s => s)

/-- Looking up the path just written finds the written data. -/
theorem lookupFile_setFile (fs : FS) (p : String) (d : FileData) :
    lookupFile (setFile fs p d) p = some d := by
  induction fs with
  | nil => simp [setFile, lookupFile]
  | cons hd tl ih =>
    obtain ⟨q, e⟩ := hd
    by_cases h : q = p
    · simp [setFile, lookupFile, h]
    · simp [setFile, lookupFile, h, ih]

/-- Reading back the JSON tree of a Range gives the Range. -/
theorem rangeFromJson_rangeToJson (r : Range) :
    rangeFromJson (rangeToJson r) = some r := by
  cases r
  rfl

/-- Reading back an elementwise-encoded list gives the list, whenever the
element encoding reads back. -/
theorem listFromJson_map {α : Type} (f : α → JsonVal) (g : JsonVal → Option α)
    (h : ∀ a, g (f a) = some a) (xs : List α) :
    listFromJson g (xs.map f) = some xs := by
  induction xs with
  | nil => rfl
  | cons a as ih => simp [listFromJson, h, ih]

/-- Reading back the JSON tree of a Prose section gives the section. -/
theorem proseFromJson_proseToJson (p : Prose) :
    proseFromJson (proseToJson p) = some p := by
  obtain ⟨ls, t⟩ := p
  simp [proseToJson, proseFromJson,
    listFromJson_map rangeToJson rangeFromJson rangeFromJson_rangeToJson]

/-- Reading back the JSON tree of a Documentation gives the value: the
serialization round-trips up to deep equality. -/
theorem docFromJson_docToJson (d : Documentation) :
    docFromJson (docToJson d) = some d := by
  obtain ⟨ss⟩ := d
  simp [docToJson, docFromJson,
    listFromJson_map proseToJson proseFromJson proseFromJson_proseToJson]

/-- Loading right after a successful save returns the saved tree. -/
theorem load_after_save (m : CacheManager) (fs : FS)
    (filePath content skillLevel : String) (doc : Documentation) :
    CacheManager.load m (CacheManager.save m fs filePath content skillLevel doc true)
      filePath content skillLevel = some (docToJson doc) := by
  simp [CacheManager.load, CacheManager.loadAttempt, CacheManager.save,
    existsSync, readAndParse, lookupFile_setFile, Except.map]

/-- The switch of getAnalyzerPrompt agrees with the conditional chain over
every string. -/
theorem getAnalyzerPrompt_cases
    (codeAnalyzerBeginner codeAnalyzerIntermediate codeAnalyzerAdvanced skillLevel : String) :
    DocumentationGenerator.getAnalyzerPrompt
        codeAnalyzerBeginner codeAnalyzerIntermediate codeAnalyzerAdvanced skillLevel =
      if skillLevel = "beginner" then codeAnalyzerBeginner
      else if skillLevel = "advanced" then codeAnalyzerAdvanced
      else codeAnalyzerIntermediate := by
  unfold DocumentationGenerator.getAnalyzerPrompt
  split
  · simp
  · simp
  · rename_i h1 h2
    rw [if_neg h1, if_neg h2]

/-- The generation arm of a request performs exactly the store writes its
result demands: one write of the generated documentation at the fingerprint
path on completion, none on a thrown outcome. -/
theorem runGeneration_writes (m : CacheManager) (fs : FS)
    (filePath content skillLevel : String) (outcome : ModelOutcome)
    (cancelRequested writeOk : Bool) :
    (runGeneration m fs filePath content skillLevel outcome cancelRequested writeOk).writes =
      expectedWriteLog m filePath content skillLevel
        (runGeneration m fs filePath content skillLevel outcome cancelRequested writeOk).result := by
  unfold runGeneration
  cases DocumentationGenerator.generate cancelRequested outcome with
  | completed doc => rfl
  | thrown errName notice => cases notice <;> rfl

/-- C3: the fingerprint computation does not separate its fields: the
distinct triples (ab, c, beginner) and (a, bc, beginner) concatenate to the
same hash input, so getCacheKey collides on them for every digest
function. -/
theorem c3_cross_field_collision :
    ∀ m : CacheManager,
      ((("ab", "c") == (("a" : String), ("bc" : String))) = false) ∧
      m.getCacheKey "ab" "c" "beginner" = m.getCacheKey "a" "bc" "beginner" := by
  intro m
  exact ⟨rfl, rfl⟩

/-- C4: starting a second generation while the first is in flight does not
cancel the first: after the two session starts both controllers are in
flight and no abort has been issued, so two generation sessions are
simultaneously active. -/
theorem c4_overlapping_sessions :
    (beginUpdateSession (SessionState.mk 0 none [] [])).inFlight = [0] ∧
    (beginUpdateSession (beginUpdateSession (SessionState.mk 0 none [] []))).inFlight = [1, 0] ∧
    (beginUpdateSession (beginUpdateSession (SessionState.mk 0 none [] []))).aborted = [] :=
  ⟨rfl, rfl, rfl⟩

/-- C5 counterexample: with cancellation already requested, a model call that
nevertheless resolves with parsed data makes generate return it as completed,
rather than terminating as cancelled and discarding it. -/
theorem c5_counterexample :
    DocumentationGenerator.generate true (ModelOutcome.resolved (some exDoc)) =
      GenOutcome.completed exDoc :=
  rfl

/-- C5 amended: when cancellation is requested and the model call
consequently rejects, generate rethrows with the cancellation notice, the
request resolves as cancelled, and the store is untouched; only a call that
resolves with data despite the cancellation request is returned as
completed. -/
theorem c5_amended_cancel_on_reject (errName : String) (m : CacheManager) (fs : FS)
    (filePath content skillLevel : String) (writeOk : Bool) :
    DocumentationGenerator.generate true (ModelOutcome.rejected errName) =
      GenOutcome.thrown errName true ∧
    (request m fs filePath content skillLevel true
        (ModelOutcome.rejected errName) true writeOk).result = RequestResult.cancelled ∧
    (request m fs filePath content skillLevel true
        (ModelOutcome.rejected errName) true writeOk).writes = [] ∧
    (request m fs filePath content skillLevel true
        (ModelOutcome.rejected errName) true writeOk).fsOut = fs := by
  refine ⟨?_, ?_, ?_, ?_⟩ <;>
    simp [request, runGeneration, DocumentationGenerator.generate]

/-- C6: load never propagates an error: viewed with its catch clause as an
exception-carrying computation it always returns ok, and its value is some
tree exactly when the cache file exists and parses, with every missing,
unreadable or malformed entry mapped to absent. -/
theorem c6_load_fails_soft (m : CacheManager) (fs : FS)
    (filePath content skillLevel : String) :
    CacheManager.loadResult m fs filePath content skillLevel =
      Except.ok (CacheManager.load m fs filePath content skillLevel) ∧
    CacheManager.load m fs filePath content skillLevel =
      (match lookupFile fs (m.getCachePath (m.getCacheKey filePath content skillLevel)) with
        | some (FileData.jsonFile v) => some v
        | _ => none) := by
  constructor
  · unfold CacheManager.loadResult CacheManager.load
    cases CacheManager.loadAttempt m fs filePath content skillLevel <;> rfl
  · cases h : lookupFile fs (m.getCachePath (m.getCacheKey filePath content skillLevel)) with
    | none =>
      simp [CacheManager.load, CacheManager.loadAttempt, existsSync, readAndParse, h]
    | some d =>
      cases d <;>
        simp [CacheManager.load, CacheManager.loadAttempt, existsSync, readAndParse, h,
          Except.map]

/-- C7: a successful save followed by a load with the same key returns the
saved tree, and that tree reads back to a value deeply equal to the saved
documentation, for every documentation including the empty-sections case. -/
theorem c7_save_load_roundtrip (m : CacheManager) (fs : FS)
    (filePath content skillLevel : String) (doc : Documentation) :
    CacheManager.load m (CacheManager.save m fs filePath content skillLevel doc true)
        filePath content skillLevel = some (docToJson doc) ∧
    docFromJson (docToJson doc) = some doc :=
  ⟨load_after_save m fs filePath content skillLevel doc, docFromJson_docToJson doc⟩

/-- C8: prompt selection is total and never fails: beginner selects the
beginner template, advanced the advanced one, and every other input,
intermediate included, selects the intermediate template. -/
theorem c8_prompt_selection_total
    (codeAnalyzerBeginner codeAnalyzerIntermediate codeAnalyzerAdvanced : String) :
    DocumentationGenerator.getAnalyzerPrompt
        codeAnalyzerBeginner codeAnalyzerIntermediate codeAnalyzerAdvanced "beginner" =
      codeAnalyzerBeginner ∧
    DocumentationGenerator.getAnalyzerPrompt
        codeAnalyzerBeginner codeAnalyzerIntermediate codeAnalyzerAdvanced "advanced" =
      codeAnalyzerAdvanced ∧
    DocumentationGenerator.getAnalyzerPrompt
        codeAnalyzerBeginner codeAnalyzerIntermediate codeAnalyzerAdvanced "intermediate" =
      codeAnalyzerIntermediate ∧
    ∀ skillLevel : String, skillLevel ≠ "beginner" → skillLevel ≠ "advanced" →
      DocumentationGenerator.getAnalyzerPrompt
          codeAnalyzerBeginner codeAnalyzerIntermediate codeAnalyzerAdvanced skillLevel =
        codeAnalyzerIntermediate := by
  refine ⟨?_, ?_, ?_, ?_⟩
  · simp [getAnalyzerPrompt_cases]
  · simp [getAnalyzerPrompt_cases]
  · simp [getAnalyzerPrompt_cases]
  · intro skillLevel h1 h2
    simp [getAnalyzerPrompt_cases, h1, h2]

/-- C8 witness: the selection evaluated at concrete templates, on the
beginner level and on an unrecognized level. -/
theorem c8_witness :
    DocumentationGenerator.getAnalyzerPrompt "B" "I" "A" "beginner" = "B" ∧
    DocumentationGenerator.getAnalyzerPrompt "B" "I" "A" "unknown" = "I" :=
  ⟨(c8_prompt_selection_total "B" "I" "A").1,
    (c8_prompt_selection_total "B" "I" "A").2.2.2 "unknown" (by decide) (by decide)⟩

/-- C9: the fingerprint computation is deterministic and depends only on its
three inputs: two computations with identical inputs yield identical keys,
there being no other state for getCacheKey to read. -/
theorem c9_fingerprint_deterministic (m : CacheManager)
    (filePath content skillLevel filePath2 content2 skillLevel2 : String)
    (h1 : filePath = filePath2) (h2 : content = content2)
    (h3 : skillLevel = skillLevel2) :
    m.getCacheKey filePath content skillLevel =
      m.getCacheKey filePath2 content2 skillLevel2 := by
  rw [h1, h2, h3]

/-- C9 witness: two runs on the same concrete triple agree. -/
theorem c9_witness :
    mEx.getCacheKey "p" "x" "beginner" = mEx.getCacheKey "p" "x" "beginner" :=
  c9_fingerprint_deterministic mEx "p" "x" "beginner" "p" "x" "beginner" rfl rfl rfl

/-- C10: the inline conditional of extension.ts and the switch of
getAnalyzerPrompt denote the same selection function on every input. -/
theorem c10_prompt_selection_equiv
    (codeAnalyzerBeginner codeAnalyzerIntermediate codeAnalyzerAdvanced skillLevel : String) :
    inlineAnalyzerPrompt
        codeAnalyzerBeginner codeAnalyzerIntermediate codeAnalyzerAdvanced skillLevel =
      DocumentationGenerator.getAnalyzerPrompt
        codeAnalyzerBeginner codeAnalyzerIntermediate codeAnalyzerAdvanced skillLevel := by
  rw [getAnalyzerPrompt_cases]
  rfl

/-- C1: with no forced refresh, after a first request that succeeds, a second
request with identical arguments creates no new session, performs no store
write, and returns the cached documentation through a store load, so the two
calls together start at most one generation session. -/
theorem c1_request_idempotent (m : CacheManager) (fs : FS)
    (filePath content skillLevel : String) (o1 o2 : ModelOutcome)
    (cr1 cr2 w2 : Bool)
    (hsucc : isSuccessResult
      (request m fs filePath content skillLevel false o1 cr1 true).result = true) :
    (request m (request m fs filePath content skillLevel false o1 cr1 true).fsOut
        filePath content skillLevel false o2 cr2 w2).sessions = 0 ∧
    (request m fs filePath content skillLevel false o1 cr1 true).sessions +
      (request m (request m fs filePath content skillLevel false o1 cr1 true).fsOut
        filePath content skillLevel false o2 cr2 w2).sessions ≤ 1 ∧
    (request m (request m fs filePath content skillLevel false o1 cr1 true).fsOut
        filePath content skillLevel false o2 cr2 w2).writes = [] ∧
    ∃ v, CacheManager.load m
        (request m fs filePath content skillLevel false o1 cr1 true).fsOut
        filePath content skillLevel = some v ∧
      (request m (request m fs filePath content skillLevel false o1 cr1 true).fsOut
        filePath content skillLevel false o2 cr2 w2).result = RequestResult.cached v := by
  cases h1 : CacheManager.load m fs filePath content skillLevel with
  | some v => simp [request, h1]
  | none =>
    cases ho : DocumentationGenerator.generate cr1 o1 with
    | completed doc =>
      have h2 := load_after_save m fs filePath content skillLevel doc
      simp [request, runGeneration, h1, ho, h2]
    | thrown errName notice =>
      exfalso
      cases notice <;>
        simp [request, runGeneration, h1, ho, isSuccessResult] at hsucc

/-- C1 witness: a concrete first request that generates successfully, after
which the identical second request is a pure cache hit with no session. -/
theorem c1_witness :
    isSuccessResult (request mEx [] "p" "x" "beginner" false
        (ModelOutcome.resolved (some exDoc)) false true).result = true ∧
    (request mEx
        (request mEx [] "p" "x" "beginner" false
          (ModelOutcome.resolved (some exDoc)) false true).fsOut
        "p" "x" "beginner" false (ModelOutcome.rejected "Error") false true).sessions = 0 :=
  ⟨rfl, (c1_request_idempotent mEx [] "p" "x" "beginner"
      (ModelOutcome.resolved (some exDoc)) (ModelOutcome.rejected "Error")
      false false true rfl).1⟩

/-- C2: a request performs exactly the store writes its outcome demands: one
write, of the generated documentation at the fingerprint path, when the
result is a successful generation, and none on a cache hit, a cancellation,
or a failure. -/
theorem c2_store_write_discipline (m : CacheManager) (fs : FS)
    (filePath content skillLevel : String) (forceRefresh : Bool)
    (outcome : ModelOutcome) (cancelRequested writeOk : Bool) :
    (request m fs filePath content skillLevel forceRefresh outcome
        cancelRequested writeOk).writes =
      expectedWriteLog m filePath content skillLevel
        (request m fs filePath content skillLevel forceRefresh outcome
          cancelRequested writeOk).result := by
  cases forceRefresh with
  | true =>
    simpa [request] using
      runGeneration_writes m fs filePath content skillLevel outcome cancelRequested writeOk
  | false =>
    cases h : CacheManager.load m fs filePath content skillLevel with
    | some v => simp [request, h, expectedWriteLog]
    | none =>
      simpa [request, h] using
        runGeneration_writes m fs filePath content skillLevel outcome cancelRequested writeOk

end Literate
